import Mathlib

/-!
Shallow embedding of the calendar/slot engine of the garage schedule
management dashboard (src/app/garage-setup/_components/utils.ts, the
calendar-view grid generator, and the page-level week navigation).

Dates are modelled as their epoch-day number: the number of calendar days
since 1970-01-01 (day 0).  The `YYYY-MM-DD` strings the source produces via
`toISOString().split("T")[0]` are in order-preserving bijection with these
day numbers, and the source's `Date` arithmetic (`setDate`, month-overflow
normalization) is plain day arithmetic on them.  Months are 0-based
(January = 0) exactly as in the source.
-/

namespace Garage

/-- Gregorian leap-year rule, as applied by the JavaScript `Date` engine. -/
def isLeap (y : Int) : Bool := y % 4 == 0 && (y % 100 != 0 || y % 400 == 0)

/-- Number of days of year `y`. -/
def daysInYear (y : Int) : Nat := if isLeap y then 366 else 365

/-- Length of month `m` (0-based, January = 0) of year `y`. -/
def monthLen (y : Int) (m : Nat) : Nat :=
  if m = 1 then (if isLeap y then 29 else 28)
  else if m = 3 ∨ m = 5 ∨ m = 8 ∨ m = 10 then 30
  else 31

/-- Epoch-day number of January 1 of year `1970 + n`. -/
def upFrom1970 : Nat → Int
  | 0 => 0
  | n + 1 => upFrom1970 n + daysInYear (1970 + (n : Int))

/-- Epoch-day number of January 1 of year `1970 - n`. -/
def downFrom1970 : Nat → Int
  | 0 => 0
  | n + 1 => downFrom1970 n - daysInYear (1969 - (n : Int))

/-- Epoch-day number of January 1 of year `y`. -/
def yearFirst (y : Int) : Int :=
  if 1970 ≤ y then upFrom1970 (y - 1970).toNat else downFrom1970 (1970 - y).toNat

/-- Epoch-day number of the first day of month `m` (0-based) of year `y`;
`m` may exceed 11, with the same normalization the source relies on when it
writes `new Date(year, month + 1, 0)`. -/
def monthFirst (y : Int) : Nat → Int
  | 0 => yearFirst y
  | m + 1 => monthFirst y m + monthLen y m

/-- Epoch-day number of `new Date(y, m, d)`: day `d` (1-based; the engine
normalizes values outside `1..monthLen`) of month `m` of year `y`. -/
def mkDate (y : Int) (m : Nat) (d : Int) : Int := monthFirst y m + d - 1

/-- `Date.prototype.getDay`: 0 = Sunday … 6 = Saturday.  Day 0
(1970-01-01) was a Thursday.  `Int.emod` is nonnegative here, matching the
engine's always-nonnegative day-of-week. -/
def dayOfWeek (t : Int) : Int := (t + 4) % 7

theorem dayOfWeek_nonneg (t : Int) : 0 ≤ dayOfWeek t :=
  Int.emod_nonneg _ (by norm_num)

theorem dayOfWeek_lt (t : Int) : dayOfWeek t < 7 :=
  Int.emod_lt_of_pos _ (by norm_num)

theorem monthLen_bounds (y : Int) (m : Nat) :
    28 ≤ monthLen y m ∧ monthLen y m ≤ 31 := by
  unfold monthLen; split_ifs <;> omega

theorem yearFirst_succ (y : Int) : yearFirst (y + 1) = yearFirst y + daysInYear y := by
  unfold yearFirst
  rcases lt_trichotomy y 1969 with h | h | h
  · rw [if_neg (by omega), if_neg (by omega)]
    have hk : (1970 - y).toNat = (1970 - (y + 1)).toNat + 1 := by omega
    rw [hk, downFrom1970]
    have harg : (1969 : Int) - ((1970 - (y + 1)).toNat : Int) = y := by omega
    rw [harg]; ring
  · subst h
    rw [if_pos (by omega), if_neg (by omega)]
    have h1 : ((1969 : Int) + 1 - 1970).toNat = 0 := by omega
    have h2 : ((1970 : Int) - 1969).toNat = 1 := by omega
    rw [h1, h2]
    simp [upFrom1970, downFrom1970]
  · rw [if_pos (by omega), if_pos (by omega)]
    have hk : (y + 1 - 1970).toNat = (y - 1970).toNat + 1 := by omega
    rw [hk, upFrom1970]
    have harg : (1970 : Int) + ((y - 1970).toNat : Int) = y := by omega
    rw [harg]

theorem monthFirst_twelve (y : Int) : monthFirst y 12 = yearFirst (y + 1) := by
  rw [yearFirst_succ]
  by_cases h : isLeap y <;>
    simp only [monthFirst, monthLen, daysInYear, h] <;> norm_num <;> omega

/-- `getWeekStartDate` from utils.ts: the epoch-day number of the
`YYYY-MM-DD` string it returns.  `setDate(1 - firstDay.getDay())` is
`firstDay - getDay()` in day arithmetic, and
`setDate(firstSunday.getDate() + weekIndex * 7)` adds `weekIndex * 7`
days. -/
def getWeekStartDate (weekIndex : Int) (month : Nat) (year : Int) : Int :=
  let firstDay := mkDate year month 1
  let firstSunday := firstDay - dayOfWeek firstDay
  firstSunday + weekIndex * 7

/-- `getWeekIndexForDate` from utils.ts.  `targetDay` is
`new Date(dateStr).getDate()`, the day-of-month the string encodes; the
`availabilityData` parameter of the source is unused there and dropped
here.  `Int` division by 7 is floor division, matching `Math.floor`. -/
def getWeekIndexForDate (targetDay : Nat) (month : Nat) (year : Int) : Int :=
  let firstDayOfWeek := dayOfWeek (mkDate year month 1)
  max 0 ((firstDayOfWeek + targetDay - 2) / 7)

/-- `getTotalWeeksInMonth` from utils.ts.  `new Date(year, month + 1, 0)`
is the last day of `month`; the millisecond difference divided by a week is
exactly `diffDays / 7` in the civil model, and `Math.ceil (a / 7)` is
`(a + 6) / 7` in floor division.  The unused `availabilityData` parameter
is dropped. -/
def getTotalWeeksInMonth (month : Nat) (year : Int) : Int :=
  let firstDay := mkDate year month 1
  let lastDay := mkDate year (month + 1) 0
  let firstSunday := firstDay - dayOfWeek firstDay
  let lastSaturday := lastDay + (6 - dayOfWeek lastDay)
  let diffDays := lastSaturday - firstSunday
  max 1 ((diffDays + 6) / 7)

/-! Inverse conversion, epoch-day number → civil month, used only for the
`getMonth()` comparisons of the source (`isCurrentMonth` fields).  The
searches are fuel-bounded so that they stay structural and computable by
the kernel; the fuel supplied always suffices. -/

/-- Walk years forward from `y`: `n` is a day offset from January 1 of `y`. -/
def findYearUp : Nat → Nat → Int → Int × Nat
  | 0, n, y => (y, n)
  | fuel + 1, n, y =>
    if n < daysInYear y then (y, n) else findYearUp fuel (n - daysInYear y) (y + 1)

/-- Walk years backward from `y`: `n ≥ 1` is a day count before January 1 of `y`. -/
def findYearDown : Nat → Nat → Int → Int × Nat
  | 0, n, y => (y, n)
  | fuel + 1, n, y =>
    if n ≤ daysInYear (y - 1) then (y - 1, daysInYear (y - 1) - n)
    else findYearDown fuel (n - daysInYear (y - 1)) (y - 1)

/-- Year and 0-based day-of-year of an epoch-day number. -/
def yearAndDayOfYear (t : Int) : Int × Nat :=
  if 0 ≤ t then findYearUp (t.toNat / 365 + 1) t.toNat 1970
  else findYearDown ((-t).toNat / 365 + 1) (-t).toNat 1970

/-- Month and 0-based day-of-month from a 0-based day-of-year. -/
def monthAndDayAux (y : Int) : Nat → Nat → Nat → Nat × Nat
  | 0, m, doy => (m, doy)
  | fuel + 1, m, doy =>
    if doy < monthLen y m then (m, doy) else monthAndDayAux y fuel (m + 1) (doy - monthLen y m)

/-- `Date.prototype.getMonth` (0-based) of an epoch-day number. -/
def monthOfDay (t : Int) : Nat :=
  let p := yearAndDayOfYear t
  (monthAndDayAux p.1 12 0 p.2).1

/-! Data model (types.ts), with `YYYY-MM-DD` strings replaced by epoch-day
numbers. -/

/-- `DayAvailability` of types.ts; a time slot is its `{start, end}` pair. -/
structure DayAvailability where
  type : String
  timeSlots : List (String × String)
  start_time : Option String
  end_time : Option String
  slot_duration : Option Nat
  description : Option String
deriving DecidableEq

/-- The fallback literal `generateWeekData` substitutes for a date that is
absent from `availabilityData`. -/
def defaultAvailability : DayAvailability :=
  { type := "working", timeSlots := [("10:00", "18:00")],
    start_time := some "10:00", end_time := some "18:00",
    slot_duration := some 60, description := none }

/-- `WeekDay` of types.ts. -/
structure WeekDay where
  day : String
  date : Int
  availability : DayAvailability
  isCurrentMonth : Bool
deriving DecidableEq

def dayNames : List String :=
  ["Sunday", "Monday", "Tuesday", "Wednesday", "Thursday", "Friday", "Saturday"]

/-- `generateWeekData` from utils.ts.  The week start is computed exactly as
in `getWeekStartDate`; the loop then adds `i` days for `i = 0 … 6`.  The
availability map is keyed by the epoch-day number of the `dateStr`. -/
def generateWeekData (weekIndex : Int) (month : Nat) (year : Int)
    (availabilityData : Int → Option DayAvailability) : List WeekDay :=
  let firstDay := mkDate year month 1
  let firstSunday := firstDay - dayOfWeek firstDay
  let weekStart := firstSunday + weekIndex * 7
  (List.range 7).map fun (i : Nat) =>
    let currentDate := weekStart + (i : Int)
    { day := dayNames.getD i "",
      date := currentDate,
      availability := (availabilityData currentDate).getD defaultAvailability,
      isCurrentMonth := monthOfDay currentDate == month }

/-! Month week-grid generator (`generateCalendarDays` of the calendar view
component).  The three loops of the source — previous-month prefix,
current-month run, next-month suffix — become three mapped ranges. -/

/-- A cell of the 7-wide month grid (the source's `calendarDays` entries). -/
structure CalendarCell where
  date : Int
  day : Nat
  isCurrentMonth : Bool
  isToday : Bool
  availability : Option DayAvailability
  weekIndex : Int
deriving DecidableEq

/-- `firstDayOfMonth.getDay()` as a natural number. -/
def gridFirstDayOfWeek (month : Nat) (year : Int) : Nat :=
  (dayOfWeek (mkDate year month 1)).toNat

def prevMonthOf (month : Nat) : Nat := if month = 0 then 11 else month - 1

def prevYearOf (month : Nat) (year : Int) : Int := if month = 0 then year - 1 else year

def nextMonthOf (month : Nat) : Nat := if month = 11 then 0 else month + 1

def nextYearOf (month : Nat) (year : Int) : Int := if month = 11 then year + 1 else year

/-- `Math.ceil(calendarDays.length / 7) * 7`, evaluated where the source
does: after the prefix and the current-month run, when the list holds
`firstDayOfWeek + daysInMonth` cells. -/
def gridTotalCells (month : Nat) (year : Int) : Nat :=
  (gridFirstDayOfWeek month year + monthLen year month + 6) / 7 * 7

/-- Loop `for (let i = firstDayOfWeek - 1; i >= 0; i--)` of the source:
cell `j` of the prefix has `i = firstDayOfWeek - 1 - j` and shows day
`daysInPrevMonth - i` of the previous month.  `daysInPrevMonth` is
`new Date(selectedYear, selectedMonth, 0).getDate()`. -/
def prevMonthCells (month : Nat) (year : Int)
    (availabilityData : Int → Option DayAvailability) (today : Int) : List CalendarCell :=
  let w := gridFirstDayOfWeek month year
  let py := prevYearOf month year
  let pm := prevMonthOf month
  let daysInPrevMonth := monthLen py pm
  (List.range w).map fun (j : Nat) =>
    let i : Nat := w - 1 - j
    let day : Nat := daysInPrevMonth - i
    { date := mkDate py pm day,
      day := day,
      isCurrentMonth := false,
      isToday := mkDate py pm day == today,
      availability := availabilityData (mkDate py pm day),
      weekIndex := ((w : Int) - 1 - (i : Int) + (day : Int) - 1) / 7 }

/-- Loop `for (let day = 1; day <= daysInMonth; day++)` of the source. -/
def currentMonthCells (month : Nat) (year : Int)
    (availabilityData : Int → Option DayAvailability) (today : Int) : List CalendarCell :=
  let w := gridFirstDayOfWeek month year
  (List.range (monthLen year month)).map fun (j : Nat) =>
    let day : Nat := j + 1
    { date := mkDate year month day,
      day := day,
      isCurrentMonth := true,
      isToday := mkDate year month day == today,
      availability := availabilityData (mkDate year month day),
      weekIndex := ((w : Int) + (day : Int) - 2) / 7 }

/-- Loop `for (let day = 1; calendarDays.length < totalCells; day++)` of the
source: cell `j` of the suffix is pushed when the list holds
`firstDayOfWeek + daysInMonth + j` cells, which is its `weekIndex`
numerator. -/
def nextMonthCells (month : Nat) (year : Int)
    (availabilityData : Int → Option DayAvailability) (today : Int) : List CalendarCell :=
  let w := gridFirstDayOfWeek month year
  let ny := nextYearOf month year
  let nm := nextMonthOf month
  let count := gridTotalCells month year - (w + monthLen year month)
  (List.range count).map fun (j : Nat) =>
    let day : Nat := j + 1
    { date := mkDate ny nm day,
      day := day,
      isCurrentMonth := false,
      isToday := mkDate ny nm day == today,
      availability := availabilityData (mkDate ny nm day),
      weekIndex := ((w + monthLen year month + j) / 7 : Nat) }

/-- `generateCalendarDays` of the calendar view component: prefix, then the
month itself, then the suffix that pads the list to `totalCells`. -/
def generateCalendarDays (month : Nat) (year : Int)
    (availabilityData : Int → Option DayAvailability) (today : Int) : List CalendarCell :=
  prevMonthCells month year availabilityData today
    ++ currentMonthCells month year availabilityData today
    ++ nextMonthCells month year availabilityData today

/-! Page-level week navigation (page.tsx). -/

/-- The page state the navigation handlers read and write:
`selectedMonth`, `selectedYear`, `currentWeekIndex`. -/
structure NavState where
  month : Nat
  year : Int
  weekIndex : Int
deriving DecidableEq

/-- `navigateToPreviousWeek` from page.tsx: step back a week, wrapping to
the last week of the previous month (clamped via `getTotalWeeksInMonth`)
when the current week index is already 0. -/
def navigateToPreviousWeek (s : NavState) : NavState :=
  if 0 < s.weekIndex then { s with weekIndex := s.weekIndex - 1 }
  else
    let newMonth := if s.month = 0 then 11 else s.month - 1
    let newYear := if s.month = 0 then s.year - 1 else s.year
    { month := newMonth, year := newYear,
      weekIndex := getTotalWeeksInMonth newMonth newYear - 1 }

/-! Slot generator (`generateTimeSlots` of utils.ts). -/

/-- Decimal value of a digit character. -/
def digitVal (c : Char) : Nat := c.toNat - 48

/-- `time.split(":").map(Number)` on a well-formed `HH:MM` string, read
off the five characters, then `hours * 60 + minutes`. -/
def parseTimeMinutes (t : String) : Nat :=
  match t.data with
  | [h1, h2, ':', m1, m2] =>
    (10 * digitVal h1 + digitVal h2) * 60 + (10 * digitVal m1 + digitVal m2)
  | _ => 0

/-- `String(n).padStart(2, "0")` for the two-digit hour and minute fields
the slot generator produces. -/
def pad2 (n : Nat) : String := ⟨[Char.ofNat (48 + n / 10), Char.ofNat (48 + n % 10)]⟩

/-- Format minutes-since-midnight as the source's `HH:MM` output. -/
def formatTime (minutes : Nat) : String := pad2 (minutes / 60) ++ ":" ++ pad2 (minutes % 60)

/-- The `for` loop of `generateTimeSlots`, one fuel unit per iteration:
`none` means the fuel ran out with the loop still running. -/
def slotLoop (endMinutes slotDuration : Nat) : Nat → Nat → Option (List (Nat × Nat))
  | 0, _ => none
  | fuel + 1, currentMinutes =>
    if currentMinutes + slotDuration ≤ endMinutes then
      (slotLoop endMinutes slotDuration fuel (currentMinutes + slotDuration)).map
        (fun rest => (currentMinutes, currentMinutes + slotDuration) :: rest)
    else some []

/-- `generateTimeSlots` on minutes-since-midnight, with fuel
`endMinutes + 1`, enough for any positive duration. -/
def generateTimeSlotsM (startMinutes endMinutes slotDuration : Nat) : Option (List (Nat × Nat)) :=
  slotLoop endMinutes slotDuration (endMinutes + 1) startMinutes

/-- `generateTimeSlots` from utils.ts, with each emitted slot rendered as
the source's zero-padded `HH:MM` pair. -/
def generateTimeSlots (startTime endTime : String) (slotDuration : Nat) :
    Option (List (String × String)) :=
  (generateTimeSlotsM (parseTimeMinutes startTime) (parseTimeMinutes endTime) slotDuration).map
    (List.map fun s => (formatTime s.1, formatTime s.2))

/-! Closed form of the slot loop, and the slot-generator claims. -/

/-- With a positive duration the slot loop terminates and emits the
arithmetic progression of slots whose ends stay within `endM`, provided the
fuel exceeds the number of iterations. -/
theorem slotLoop_closed (endM d : Nat) (hd : 1 ≤ d) :
    ∀ fuel cur : Nat, (endM - cur) / d < fuel →
      slotLoop endM d fuel cur =
        some ((List.range ((endM - cur) / d)).map fun i => (cur + d * i, cur + d * i + d)) := by
  intro fuel
  induction fuel with
  | zero => intro cur h; exact absurd h (Nat.not_lt_zero _)
  | succ n ih =>
    intro cur h
    rw [slotLoop]
    by_cases hc : cur + d ≤ endM
    · rw [if_pos hc]
      have key : (endM - cur) / d = (endM - (cur + d)) / d + 1 := by
        conv_lhs => rw [Nat.div_eq]
        rw [if_pos ⟨by omega, by omega⟩]
        congr 2
        omega
      rw [ih (cur + d) (by omega), key, Option.map_some', List.range_succ_eq_map,
        List.map_cons, List.map_map]
      refine congrArg some (List.cons_eq_cons.mpr ⟨by simp, ?_⟩)
      refine List.map_congr_left fun a _ => ?_
      simp only [Function.comp_apply, Prod.mk.injEq]
      constructor <;> (rw [Nat.mul_succ]; ring)
    · rw [if_neg hc]
      rw [Nat.div_eq_of_lt (by omega)]
      simp

/-- With duration 0 and a start not past the end, the slot loop never
exits: every fuel bound is exhausted. -/
theorem slotLoop_dur_zero (endM : Nat) :
    ∀ fuel cur : Nat, cur ≤ endM → slotLoop endM 0 fuel cur = none := by
  intro fuel
  induction fuel with
  | zero => intro cur _; rfl
  | succ n ih =>
    intro cur h
    rw [slotLoop, if_pos (by omega), Nat.add_zero, ih cur (by omega)]
    rfl

/-- C5 (amended): for well-formed `HH:MM` bounds and every positive
duration, the slot loop terminates — one fixed finite ordered sequence is
returned under every sufficient fuel bound — and `generateTimeSlotsM`
returns it. -/
theorem generateTimeSlots_total (startM endM d : Nat)
    (hs : startM ≤ 1439) (he : endM ≤ 1439) (hd : 1 ≤ d) :
    ∃ slots, generateTimeSlotsM startM endM d = some slots
      ∧ ∀ fuel, endM + 1 ≤ fuel → slotLoop endM d fuel startM = some slots := by
  have hb : (endM - startM) / d ≤ endM - startM := Nat.div_le_self _ _
  refine ⟨_, slotLoop_closed endM d hd (endM + 1) startM (by omega), fun fuel hf => ?_⟩
  exact slotLoop_closed endM d hd fuel startM (by omega)

/-- Witness for C5 at `("09:00", "17:00", 60)`, i.e. minutes `(540, 1020, 60)`. -/
theorem generateTimeSlots_total_witness :
    ∃ slots, generateTimeSlotsM 540 1020 60 = some slots
      ∧ ∀ fuel, 1020 + 1 ≤ fuel → slotLoop 1020 60 fuel 540 = some slots :=
  generateTimeSlots_total 540 1020 60 (by norm_num) (by norm_num) (by norm_num)

/-- C5 counterexample: with duration 0 (a non-negative integer) and
`09:00 ≤ 10:00`, the source's loop never terminates — no fuel bound makes
it exit — and the fuelled embedding reports `none`. -/
theorem generateTimeSlots_dur_zero_diverges :
    generateTimeSlots "09:00" "10:00" 0 = none
      ∧ ¬ ∃ fuel, (slotLoop 600 0 fuel 540).isSome = true := by
  constructor
  · have h : slotLoop 600 0 601 540 = none := slotLoop_dur_zero 600 601 540 (by norm_num)
    show (generateTimeSlotsM (parseTimeMinutes "09:00") (parseTimeMinutes "10:00") 0).map _ = none
    have hp : parseTimeMinutes "09:00" = 540 := by decide
    have hq : parseTimeMinutes "10:00" = 600 := by decide
    rw [hp, hq]
    show (slotLoop 600 0 601 540).map _ = none
    rw [h]
    rfl
  · rintro ⟨fuel, hsome⟩
    rw [slotLoop_dur_zero 600 fuel 540 (by norm_num)] at hsome
    simp at hsome

/-- C6: slots start at `startTime`, are each exactly the duration long,
are contiguous (slot `i` runs from `start + i·d` to `start + (i+1)·d`),
end within `endTime` with no partial final slot, and the two concrete
examples of the spec evaluate exactly as claimed. -/
theorem generateTimeSlots_exact :
    (∀ s e d : Nat, 1 ≤ d →
        generateTimeSlotsM s e d =
          some ((List.range ((e - s) / d)).map fun i => (s + d * i, s + d * i + d)))
    ∧ (∀ s e d slots, 1 ≤ d → generateTimeSlotsM s e d = some slots →
        (∀ p ∈ slots, p.2 ≤ e) ∧ e < s + d * (slots.length + 1))
    ∧ generateTimeSlots "09:00" "17:00" 60 =
        some [("09:00", "10:00"), ("10:00", "11:00"), ("11:00", "12:00"), ("12:00", "13:00"),
          ("13:00", "14:00"), ("14:00", "15:00"), ("15:00", "16:00"), ("16:00", "17:00")]
    ∧ generateTimeSlots "09:00" "09:45" 30 = some [("09:00", "09:30")] := by
  have main : ∀ s e d : Nat, 1 ≤ d →
      generateTimeSlotsM s e d =
        some ((List.range ((e - s) / d)).map fun i => (s + d * i, s + d * i + d)) := by
    intro s e d hd
    have hb : (e - s) / d ≤ e - s := Nat.div_le_self _ _
    exact slotLoop_closed e d hd (e + 1) s (by omega)
  refine ⟨main, ?_, by decide, by decide⟩
  intro s e d slots hd hsome
  rw [main s e d hd] at hsome
  have hslots := Option.some_injective _ hsome
  subst hslots
  have hmul : d * ((e - s) / d) ≤ e - s := Nat.mul_div_le (e - s) d
  constructor
  · intro p hp
    obtain ⟨i, hi, hpi⟩ := List.mem_map.mp hp
    have hi7 : i < (e - s) / d := List.mem_range.mp hi
    have h1 : d * (i + 1) ≤ d * ((e - s) / d) := Nat.mul_le_mul_left d (by omega)
    have h2 : d * (i + 1) = d * i + d := by ring
    have hp2 : p.2 = s + d * i + d := by rw [← hpi]
    omega
  · simp only [List.length_map, List.length_range]
    have hmod := Nat.div_add_mod (e - s) d
    have hlt : (e - s) % d < d := Nat.mod_lt _ (by omega)
    have h3 : d * ((e - s) / d + 1) = d * ((e - s) / d) + d := by ring
    omega

/-- Witness for C6 at minutes `(540, 585, 30)` (the `09:00`–`09:45`
truncation case). -/
theorem generateTimeSlots_exact_witness :
    generateTimeSlotsM 540 585 30 = some [(540, 570)] := by
  have h := generateTimeSlots_exact.1 540 585 30 (by norm_num)
  simpa using h

/-- C9: whenever the (positive) duration does not fit even once — in
particular whenever `startTime ≥ endTime` — the result is the empty
sequence, not an error, and the concrete `17:00`→`09:00` example returns
the empty sequence. -/
theorem generateTimeSlots_empty :
    (∀ s e d : Nat, 1 ≤ d → (e ≤ s ∨ e < s + d) → generateTimeSlotsM s e d = some [])
    ∧ generateTimeSlots "17:00" "09:00" 60 = some [] := by
  constructor
  · intro s e d hd h
    have hb : (e - s) / d ≤ e - s := Nat.div_le_self _ _
    show slotLoop e d (e + 1) s = some []
    rw [slotLoop_closed e d hd (e + 1) s (by omega), Nat.div_eq_of_lt (by omega)]
    rfl
  · decide

/-- Witness for C9 at minutes `(1020, 540, 60)` (`17:00` ≥ `09:00`). -/
theorem generateTimeSlots_empty_witness : generateTimeSlotsM 1020 540 60 = some [] :=
  generateTimeSlots_empty.1 1020 540 60 (by norm_num) (Or.inl (by norm_num))

/-! Week boundary resolver claims. -/

/-- C1 counterexample: June 2025 starts on a Sunday, and for the Sunday
2025-06-08 the week index formula yields 0, so the resolved week start is a
full 7 days earlier and the next week starts exactly on the date itself —
the strict bracket of the claim fails. -/
theorem weekIndex_weekStart_bracket_cex :
    getWeekIndexForDate 8 5 2025 = 0
    ∧ mkDate 2025 5 8 - getWeekStartDate 0 5 2025 = 7
    ∧ ¬ (mkDate 2025 5 8 - getWeekStartDate (getWeekIndexForDate 8 5 2025) 5 2025 < 7
        ∧ mkDate 2025 5 8 < getWeekStartDate (getWeekIndexForDate 8 5 2025 + 1) 5 2025) := by
  decide

/-- C1 (amended): for every date of the month,
`getWeekStartDate (getWeekIndexForDate d) ≤ d` and the difference is at
most 7 days with `d ≤ getWeekStartDate (weekIndex + 1)`; the strict
bounds of the claim hold exactly when `d` is not a Sunday other than a
first-of-month Sunday (on such Sundays the difference is exactly 7 and the
next week starts on `d` itself). -/
theorem weekIndex_weekStart_bracket (month : Nat) (year : Int) (day : Nat)
    (hm : month ≤ 11) (hd1 : 1 ≤ day) (hd2 : day ≤ monthLen year month) :
    getWeekStartDate (getWeekIndexForDate day month year) month year ≤ mkDate year month day
    ∧ mkDate year month day
        - getWeekStartDate (getWeekIndexForDate day month year) month year ≤ 7
    ∧ mkDate year month day ≤ getWeekStartDate (getWeekIndexForDate day month year + 1) month year
    ∧ ((mkDate year month day
          - getWeekStartDate (getWeekIndexForDate day month year) month year < 7
        ∧ mkDate year month day
            < getWeekStartDate (getWeekIndexForDate day month year + 1) month year)
      ↔ ¬ (dayOfWeek (mkDate year month day) = 0 ∧ 2 ≤ day)) := by
  simp only [getWeekStartDate, getWeekIndexForDate, mkDate, dayOfWeek]
  omega

/-- Witness for C1 (amended) at 2025-01-15 in January 2025. -/
theorem weekIndex_weekStart_bracket_witness :
    getWeekStartDate (getWeekIndexForDate 15 0 2025) 0 2025 ≤ mkDate 2025 0 15 :=
  (weekIndex_weekStart_bracket 0 2025 15 (by norm_num) (by norm_num) (by decide)).1

/-! Total-weeks claims. -/

/-- C4 counterexample: February 2026 has 28 days and starts on a Sunday,
and `getTotalWeeksInMonth` reports 4 — neither 5 nor 6. -/
theorem totalWeeks_cex :
    getTotalWeeksInMonth 1 2026 = 4
    ∧ ¬ (getTotalWeeksInMonth 1 2026 = 5 ∨ getTotalWeeksInMonth 1 2026 = 6) := by
  decide

/-- C4 (amended): for every valid month the total-week count is at least 1
and lies in {4, 5, 6}; it is 4 exactly for a 28-day month that starts on a
Sunday. -/
theorem totalWeeks_bounds (month : Nat) (year : Int) (hm : month ≤ 11) :
    1 ≤ getTotalWeeksInMonth month year
    ∧ 4 ≤ getTotalWeeksInMonth month year
    ∧ getTotalWeeksInMonth month year ≤ 6
    ∧ (getTotalWeeksInMonth month year = 4
        ↔ monthLen year month = 28 ∧ dayOfWeek (mkDate year month 1) = 0) := by
  have hlen := monthLen_bounds year month
  have hnext : monthFirst year (month + 1) = monthFirst year month + monthLen year month := rfl
  simp only [getTotalWeeksInMonth, mkDate, dayOfWeek, hnext]
  omega

/-- Witness for C4 (amended) at January 2025. -/
theorem totalWeeks_bounds_witness : getTotalWeeksInMonth 0 2025 ≤ 6 :=
  (totalWeeks_bounds 0 2025 (by norm_num)).2.2.1

/-! Month-grid infrastructure. -/

theorem monthFirst_prev (month : Nat) (year : Int) (hm : month ≤ 11) :
    monthFirst (prevYearOf month year) (prevMonthOf month)
      + (monthLen (prevYearOf month year) (prevMonthOf month) : Int) = monthFirst year month := by
  rcases Nat.eq_zero_or_pos month with h0 | hpos
  · subst h0
    show monthFirst (year - 1) 11 + (monthLen (year - 1) 11 : Int) = monthFirst year 0
    have h12 : monthFirst (year - 1) 12 = yearFirst (year - 1 + 1) := monthFirst_twelve (year - 1)
    have hy : year - 1 + 1 = year := by ring
    rw [hy] at h12
    have hstep : monthFirst (year - 1) 12
        = monthFirst (year - 1) 11 + (monthLen (year - 1) 11 : Int) := rfl
    rw [← hstep, h12]
    rfl
  · obtain ⟨k, rfl⟩ : ∃ k, month = k + 1 := ⟨month - 1, by omega⟩
    show monthFirst year k + (monthLen year k : Int) = monthFirst year (k + 1)
    rfl

theorem monthFirst_next (month : Nat) (year : Int) (hm : month ≤ 11) :
    monthFirst (nextYearOf month year) (nextMonthOf month)
      = monthFirst year month + monthLen year month := by
  by_cases h : month = 11
  · subst h
    simp only [nextYearOf, nextMonthOf, if_pos rfl]
    show yearFirst (year + 1) = monthFirst year 11 + (monthLen year 11 : Int)
    rw [← monthFirst_twelve year]
    rfl
  · simp only [nextYearOf, nextMonthOf, if_neg h]
    rfl

theorem gridFirstDayOfWeek_cast (month : Nat) (year : Int) :
    ((gridFirstDayOfWeek month year : Nat) : Int) = dayOfWeek (mkDate year month 1) :=
  Int.toNat_of_nonneg (dayOfWeek_nonneg _)

theorem gridFirstDayOfWeek_lt (month : Nat) (year : Int) : gridFirstDayOfWeek month year < 7 := by
  have h1 := dayOfWeek_lt (mkDate year month 1)
  have h2 := dayOfWeek_nonneg (mkDate year month 1)
  unfold gridFirstDayOfWeek
  omega

theorem length_prevMonthCells (month : Nat) (year : Int)
    (av : Int → Option DayAvailability) (today : Int) :
    (prevMonthCells month year av today).length = gridFirstDayOfWeek month year := by
  simp [prevMonthCells]

theorem length_currentMonthCells (month : Nat) (year : Int)
    (av : Int → Option DayAvailability) (today : Int) :
    (currentMonthCells month year av today).length = monthLen year month := by
  simp [currentMonthCells]

theorem length_nextMonthCells (month : Nat) (year : Int)
    (av : Int → Option DayAvailability) (today : Int) :
    (nextMonthCells month year av today).length
      = gridTotalCells month year - (gridFirstDayOfWeek month year + monthLen year month) := by
  simp [nextMonthCells]

theorem length_generateCalendarDays (month : Nat) (year : Int)
    (av : Int → Option DayAvailability) (today : Int) :
    (generateCalendarDays month year av today).length = gridTotalCells month year := by
  simp only [generateCalendarDays, List.length_append, length_prevMonthCells,
    length_currentMonthCells, length_nextMonthCells, gridTotalCells]
  omega

/-! Grid claims. -/

/-- C2 evaluation at the failing input: for January 2025 the grid has
35 cells, not the 42 the spec (and the component's own header comment)
claims — the source pads only to complete weeks, not to six rows. -/
theorem generateCalendarDays_jan2025_35 :
    (generateCalendarDays 0 2025 (fun _ => none) 0).length = 35
    ∧ ¬ (generateCalendarDays 0 2025 (fun _ => none) 0).length = 42 := by
  rw [length_generateCalendarDays 0 2025 (fun _ => none) 0]
  exact ⟨by decide, by decide⟩

/-- C10: the dates of the grid cells are strictly consecutive days with no
gaps or duplicates: cell `i` carries the date `getWeekStartDate 0 month
year + i`, across the prefix/current/suffix seams and year boundaries. -/
theorem generateCalendarDays_dates_consecutive (month : Nat) (year : Int)
    (av : Int → Option DayAvailability) (today : Int) (hm : month ≤ 11)
    (i : Nat) (h : i < (generateCalendarDays month year av today).length) :
    ((generateCalendarDays month year av today).get ⟨i, h⟩).date
      = getWeekStartDate 0 month year + i := by
  have hw7 := gridFirstDayOfWeek_lt month year
  have hwc := gridFirstDayOfWeek_cast month year
  have hprev := monthFirst_prev month year hm
  have hnext := monthFirst_next month year hm
  have hplen := monthLen_bounds (prevYearOf month year) (prevMonthOf month)
  have hpl := length_prevMonthCells month year av today
  have hcl := length_currentMonthCells month year av today
  have hnl := length_nextMonthCells month year av today
  rw [List.get_eq_getElem]
  simp only [generateCalendarDays, List.length_append] at h ⊢
  by_cases h2 : i < (prevMonthCells month year av today
      ++ currentMonthCells month year av today).length
  · rw [List.getElem_append_left h2]
    by_cases h1 : i < (prevMonthCells month year av today).length
    · rw [List.getElem_append_left h1]
      simp only [prevMonthCells, List.getElem_map, List.getElem_range, getWeekStartDate,
        mkDate, dayOfWeek] at hwc ⊢
      omega
    · rw [List.getElem_append_right (le_of_not_lt h1)]
      rw [List.length_append] at h2
      simp only [currentMonthCells, List.getElem_map, List.getElem_range, getWeekStartDate,
        mkDate, dayOfWeek] at hwc ⊢
      omega
  · rw [List.getElem_append_right (le_of_not_lt h2)]
    rw [List.length_append] at h2
    simp only [List.length_append, nextMonthCells, List.getElem_map, List.getElem_range,
      getWeekStartDate, mkDate, dayOfWeek] at hnext hwc ⊢
    omega

/-- Witness for C10: cell 34 of the January 2025 grid. -/
theorem generateCalendarDays_dates_consecutive_witness :
    ((generateCalendarDays 0 2025 (fun _ => none) 0).get ⟨34, by decide⟩).date
      = getWeekStartDate 0 0 2025 + 34 :=
  generateCalendarDays_dates_consecutive 0 2025 (fun _ => none) 0 (by norm_num) 34 (by decide)

/-- C3 counterexample: in June 2025 (a month starting on Sunday) the very
first grid cell is June 1 itself, a current-month cell at offset 0, yet its
stored `weekIndex` is `-1`, while `floor(0 / 7) = 0` and
`getWeekIndexForDate` (which clamps) returns 0 for that date. -/
theorem generateCalendarDays_weekIndex_cex :
    ((generateCalendarDays 5 2025 (fun _ => none) 0).get ⟨0, by decide⟩).weekIndex = -1
    ∧ ((generateCalendarDays 5 2025 (fun _ => none) 0).get ⟨0, by decide⟩).isCurrentMonth = true
    ∧ ((generateCalendarDays 5 2025 (fun _ => none) 0).get ⟨0, by decide⟩).date = mkDate 2025 5 1
    ∧ getWeekIndexForDate 1 5 2025 = 0
    ∧ (0 : Int) / 7 = 0 := by
  decide

/-- C3 (amended): suffix cells do carry `weekIndex = floor(offset / 7)`,
but current-month cells carry `floor((offset - 1) / 7)` — one row too low
on Sundays, `-1` on a first-of-month Sunday — agreeing with
`getWeekIndexForDate` on every current-month date except the 1st of a
month that starts on Sunday (where the function clamps to 0); prefix cells
carry `floor((2·offset + daysInPrevMonth - firstDayOfWeek) / 7)`, not
`floor(offset / 7)`. -/
theorem generateCalendarDays_weekIndex_formulas (month : Nat) (year : Int)
    (av : Int → Option DayAvailability) (today : Int) (hm : month ≤ 11)
    (i : Nat) (h : i < (generateCalendarDays month year av today).length) :
    (gridFirstDayOfWeek month year + monthLen year month ≤ i →
      ((generateCalendarDays month year av today).get ⟨i, h⟩).weekIndex = (i : Int) / 7)
    ∧ (gridFirstDayOfWeek month year ≤ i →
        i < gridFirstDayOfWeek month year + monthLen year month →
      ((generateCalendarDays month year av today).get ⟨i, h⟩).weekIndex = ((i : Int) - 1) / 7
      ∧ (¬ (gridFirstDayOfWeek month year = 0 ∧ i = 0) →
        ((generateCalendarDays month year av today).get ⟨i, h⟩).weekIndex
          = getWeekIndexForDate (i - gridFirstDayOfWeek month year + 1) month year))
    ∧ (i < gridFirstDayOfWeek month year →
      ((generateCalendarDays month year av today).get ⟨i, h⟩).weekIndex
        = (2 * (i : Int)
            + (monthLen (prevYearOf month year) (prevMonthOf month) : Int)
            - gridFirstDayOfWeek month year) / 7) := by
  have hw7 := gridFirstDayOfWeek_lt month year
  have hwc := gridFirstDayOfWeek_cast month year
  have hplen := monthLen_bounds (prevYearOf month year) (prevMonthOf month)
  have hpl := length_prevMonthCells month year av today
  have hcl := length_currentMonthCells month year av today
  have hnl := length_nextMonthCells month year av today
  rw [List.get_eq_getElem]
  simp only [generateCalendarDays, List.length_append] at h ⊢
  refine ⟨fun hsuf => ?_, fun hcur1 hcur2 => ⟨?_, fun hne => ?_⟩, fun hpre => ?_⟩
  · rw [List.getElem_append_right
      (show (prevMonthCells month year av today
        ++ currentMonthCells month year av today).length ≤ i by
          rw [List.length_append]; omega)]
    simp only [List.length_append, nextMonthCells, List.getElem_map, List.getElem_range]
      at hwc ⊢
    omega
  · rw [List.getElem_append_left
      (show i < (prevMonthCells month year av today
        ++ currentMonthCells month year av today).length by
          rw [List.length_append]; omega)]
    rw [List.getElem_append_right (show (prevMonthCells month year av today).length ≤ i by omega)]
    simp only [currentMonthCells, List.getElem_map, List.getElem_range] at hwc ⊢
    omega
  · rw [List.getElem_append_left
      (show i < (prevMonthCells month year av today
        ++ currentMonthCells month year av today).length by
          rw [List.length_append]; omega)]
    rw [List.getElem_append_right (show (prevMonthCells month year av today).length ≤ i by omega)]
    simp only [currentMonthCells, List.getElem_map, List.getElem_range, getWeekIndexForDate,
      mkDate, dayOfWeek] at hwc ⊢
    omega
  · rw [List.getElem_append_left
      (show i < (prevMonthCells month year av today
        ++ currentMonthCells month year av today).length by
          rw [List.length_append]; omega)]
    rw [List.getElem_append_left (show i < (prevMonthCells month year av today).length by omega)]
    simp only [prevMonthCells, List.getElem_map, List.getElem_range] at hwc ⊢
    omega

/-- Witness for C3 (amended): cell 10 of the January 2025 grid is January 8
in week 1. -/
theorem generateCalendarDays_weekIndex_formulas_witness :
    ((generateCalendarDays 0 2025 (fun _ => none) 0).get ⟨10, by decide⟩).weekIndex
      = ((10 : Int) - 1) / 7 :=
  (((generateCalendarDays_weekIndex_formulas 0 2025 (fun _ => none) 0 (by norm_num) 10
    (by decide)).2.1) (by decide) (by decide)).1

/-! Week materializer claim. -/

/-- C8: `generateWeekData` always returns exactly 7 entries — consecutive
dates starting at `getWeekStartDate`, genuinely Sunday through Saturday in
order (day-of-week `i` with the matching day name) — and any date absent
from the availability map receives the working 10:00–18:00 fallback with
60-minute slots. -/
theorem generateWeekData_entries (weekIndex : Int) (month : Nat) (year : Int)
    (av : Int → Option DayAvailability) (hm : month ≤ 11) :
    (generateWeekData weekIndex month year av).length = 7
    ∧ ∀ i (h : i < (generateWeekData weekIndex month year av).length),
        ((generateWeekData weekIndex month year av).get ⟨i, h⟩).date
            = getWeekStartDate weekIndex month year + i
        ∧ dayOfWeek ((generateWeekData weekIndex month year av).get ⟨i, h⟩).date = i
        ∧ ((generateWeekData weekIndex month year av).get ⟨i, h⟩).day = dayNames.getD i ""
        ∧ (av ((generateWeekData weekIndex month year av).get ⟨i, h⟩).date = none →
            ((generateWeekData weekIndex month year av).get ⟨i, h⟩).availability
              = defaultAvailability) := by
  constructor
  · simp [generateWeekData]
  · intro i h
    have hi : i < 7 := by simpa [generateWeekData] using h
    rw [List.get_eq_getElem]
    simp only [generateWeekData, List.getElem_map, List.getElem_range]
    refine ⟨?_, ?_, by trivial, fun hnone => ?_⟩
    · simp only [getWeekStartDate]
    · simp only [dayOfWeek, mkDate, getWeekStartDate]
      omega
    · simp only at hnone ⊢
      rw [hnone]
      rfl

/-- Witness for C8 at `weekIndex = -5` in January 2025 with an empty map. -/
theorem generateWeekData_entries_witness :
    (generateWeekData (-5) 0 2025 (fun _ => none)).length = 7 :=
  (generateWeekData_entries (-5) 0 2025 (fun _ => none) (by norm_num)).1

/-! Navigation claim. -/

/-- C7 counterexample: stepping back from (January 2025, week 0) lands on
(December 2024, week 4), but that week starts exactly at
`getWeekStartDate 0 0 2025` — the two views share the boundary week — so
its dates do not immediately precede January's week 0. -/
theorem navigateToPreviousWeek_not_preceding :
    navigateToPreviousWeek ⟨0, 2025, 0⟩ = ⟨11, 2024, 4⟩
    ∧ getWeekStartDate 4 11 2024 = getWeekStartDate 0 0 2025
    ∧ ¬ getWeekStartDate 4 11 2024 + 6 < getWeekStartDate 0 0 2025 := by
  decide

/-- C7 (amended): one backward step from (January 2025, week 0) lands on
(December 2024, `getTotalWeeksInMonth 11 2024 - 1` = week 4), and the
resulting 7 dates coincide with the week starting at
`getWeekStartDate 0 0 2025` (2024-12-29 … 2025-01-04) — the boundary week
is shared between the two months, overlapping rather than preceding. -/
theorem navigateToPreviousWeek_jan2025 :
    navigateToPreviousWeek ⟨0, 2025, 0⟩
        = ⟨11, 2024, getTotalWeeksInMonth 11 2024 - 1⟩
    ∧ getTotalWeeksInMonth 11 2024 - 1 = 4
    ∧ (generateWeekData (getTotalWeeksInMonth 11 2024 - 1) 11 2024 (fun _ => none)).map
          (fun d => d.date)
        = [getWeekStartDate 0 0 2025, getWeekStartDate 0 0 2025 + 1,
           getWeekStartDate 0 0 2025 + 2, getWeekStartDate 0 0 2025 + 3,
           getWeekStartDate 0 0 2025 + 4, getWeekStartDate 0 0 2025 + 5,
           getWeekStartDate 0 0 2025 + 6] := by
  decide

end Garage
